import Mathlib

/-!
Shallow embedding of the metric-computation core of `src/app.py`
(Agricultural Value Chain Analyzer).

The embedded code is the computation loop (`src/app.py` lines 29-49) and
the recommendation loop (lines 87-92).  Numbers are modelled as rationals;
Python's `round(x, 2)` (round-half-to-even, the rounding mode of the
builtin `round`) is modelled by `round2`.
-/

/-- An input actor record, `{"name": ..., "cost": ..., "revenue": ...}`,
as assembled at `src/app.py:26`. -/
structure Actor where
  name : String
  cost : ℚ
  revenue : ℚ
deriving DecidableEq

instance : Inhabited Actor := ⟨⟨"", 0, 0⟩⟩

/-- One row of the output `data` list (`src/app.py:39-47`); field names follow
the spec's `ActorMetrics` (the Python dict keys are the column labels). -/
structure ActorMetrics where
  name : String
  cost : ℚ
  revenue : ℚ
  grossIncome : ℚ
  grossMargin : ℚ
  addedValue : ℚ
  valueShare : ℚ
deriving DecidableEq

instance : Inhabited ActorMetrics := ⟨⟨"", 0, 0, 0, 0, 0, 0⟩⟩

/-- Round-half-to-even to the nearest integer, the rounding mode of
Python's builtin `round`. -/
def roundHalfEven (q : ℚ) : ℤ :=
  if q - ⌊q⌋ < 1/2 then ⌊q⌋
  else if 1/2 < q - ⌊q⌋ then ⌊q⌋ + 1
  else if 2 ∣ ⌊q⌋ then ⌊q⌋ else ⌊q⌋ + 1

/-- Python's `round(x, 2)`: round to two decimal places. -/
def round2 (q : ℚ) : ℚ := (roundHalfEven (q * 100) : ℚ) / 100

/-- Source: `retail_price = actors[-1]["revenue"] if actors else 1` (`src/app.py:31`). -/
def retail_price (actors : List Actor) : ℚ :=
  match actors.getLast? with
  | some a => a.revenue
  | none => 1

/-- Source: `gross_income = actor["revenue"] - actor["cost"]` (`src/app.py:34`). -/
def gross_income (actor : Actor) : ℚ := actor.revenue - actor.cost

/-- Source: `gross_margin = (gross_income / actor["revenue"]) * 100 if actor["revenue"] else 0`
(`src/app.py:35`; Python's truthiness test on a number is `≠ 0`). -/
def gross_margin (actor : Actor) : ℚ :=
  if actor.revenue ≠ 0 then gross_income actor / actor.revenue * 100 else 0

/-- Source: `added_value = actor["revenue"] - prev_revenue` (`src/app.py:36`). -/
def added_value (prev_revenue : ℚ) (actor : Actor) : ℚ := actor.revenue - prev_revenue

/-- Source: `value_share = (added_value / retail_price) * 100 if retail_price else 0`
(`src/app.py:37`). -/
def value_share (rp av : ℚ) : ℚ := if rp ≠ 0 then av / rp * 100 else 0

/-- The dict appended to `data` for one actor (`src/app.py:39-47`). -/
def mkRow (rp prev : ℚ) (actor : Actor) : ActorMetrics :=
  { name := actor.name
    cost := actor.cost
    revenue := actor.revenue
    grossIncome := gross_income actor
    grossMargin := round2 (gross_margin actor)
    addedValue := round2 (added_value prev actor)
    valueShare := round2 (value_share rp (added_value prev actor)) }

/-- The `for actor in actors` loop body (`src/app.py:33-49`): emit the row for
the current actor, then continue with `prev_revenue` set to its revenue. -/
def computeLoop (rp : ℚ) (prev : ℚ) : List Actor → List ActorMetrics
  | [] => []
  | actor :: rest => mkRow rp prev actor :: computeLoop rp actor.revenue rest

/-- The whole computation block (`src/app.py:29-49`): `prev_revenue` starts
at 0 and `retail_price` is fixed before the loop. -/
def computeMetrics (actors : List Actor) : List ActorMetrics :=
  computeLoop (retail_price actors) 0 actors

/-- The sequence of pre-rounding `added_value` quantities produced by the loop,
with the same `prev_revenue` threading as `computeLoop`. -/
def addedValues (prev : ℚ) : List Actor → List ℚ
  | [] => []
  | actor :: rest => added_value prev actor :: addedValues actor.revenue rest

/-- The low-gross-margin warning string (`src/app.py:90`). -/
def marginMsg (r : ActorMetrics) : String :=
  "Actor \x27" ++ r.name ++ "\x27 has a low gross margin (" ++ toString r.grossMargin
    ++ "%). Consider reducing input costs or increasing selling price."

/-- The low-value-share warning string (`src/app.py:92`). -/
def shareMsg (r : ActorMetrics) : String :=
  "Actor \x27" ++ r.name ++ "\x27 has a small value share (" ++ toString r.valueShare
    ++ "%). Consider improving value addition strategies."

/-- The messages one row contributes, in the order the two `if`s run
(`src/app.py:89-92`). -/
def rowRecs (r : ActorMetrics) : List String :=
  (if r.grossMargin < 20 then [marginMsg r] else [])
    ++ (if r.valueShare < 10 then [shareMsg r] else [])

/-- The `for row in data` recommendation loop (`src/app.py:87-92`), which
appends to an accumulator list. -/
def recommendations (data : List ActorMetrics) : List String :=
  data.foldl (fun acc r => acc ++ rowRecs r) []

/-! ### Basic lemmas about the embedded computation -/

theorem round2_exists_div100 (q : ℚ) : ∃ k : ℤ, round2 q = (k : ℚ) / 100 :=
  ⟨roundHalfEven (q * 100), rfl⟩

theorem round2_zero : round2 0 = 0 := by
  norm_num [round2, roundHalfEven]

theorem retail_price_nil : retail_price [] = 1 := rfl

theorem retail_price_eq_getLast (l : List Actor) (h : l ≠ []) :
    retail_price l = (l.getLast h).revenue := by
  simp [retail_price, List.getLast?_eq_getLast l h]

theorem computeLoop_length (rp : ℚ) :
    ∀ (l : List Actor) (prev : ℚ), (computeLoop rp prev l).length = l.length
  | [], _ => rfl
  | _ :: rest, _ => by
    simp [computeLoop, computeLoop_length rp rest]

theorem computeLoop_getD (rp : ℚ) :
    ∀ (l : List Actor) (prev : ℚ) (i : ℕ), i < l.length →
      (computeLoop rp prev l).getD i default
        = mkRow rp (if i = 0 then prev else (l.getD (i - 1) default).revenue)
            (l.getD i default)
  | [], _, i, h => absurd h (by simp)
  | _ :: _, _, 0, _ => rfl
  | a :: rest, prev, i + 1, h => by
    have ih := computeLoop_getD rp rest a.revenue i (by simpa using h)
    simp only [computeLoop, List.getD_cons_succ]
    rw [ih]
    cases i with
    | zero => simp
    | succ j => simp

theorem computeLoop_map_name (rp : ℚ) :
    ∀ (l : List Actor) (prev : ℚ),
      (computeLoop rp prev l).map (fun r => r.name) = l.map (fun a => a.name)
  | [], _ => rfl
  | _ :: rest, _ => by
    simp [computeLoop, mkRow, computeLoop_map_name rp rest]

theorem computeLoop_map_cost (rp : ℚ) :
    ∀ (l : List Actor) (prev : ℚ),
      (computeLoop rp prev l).map (fun r => r.cost) = l.map (fun a => a.cost)
  | [], _ => rfl
  | _ :: rest, _ => by
    simp [computeLoop, mkRow, computeLoop_map_cost rp rest]

theorem computeLoop_map_revenue (rp : ℚ) :
    ∀ (l : List Actor) (prev : ℚ),
      (computeLoop rp prev l).map (fun r => r.revenue) = l.map (fun a => a.revenue)
  | [], _ => rfl
  | _ :: rest, _ => by
    simp [computeLoop, mkRow, computeLoop_map_revenue rp rest]

theorem computeLoop_map_addedValue (rp : ℚ) :
    ∀ (l : List Actor) (prev : ℚ),
      (computeLoop rp prev l).map (fun r => r.addedValue)
        = (addedValues prev l).map round2
  | [], _ => rfl
  | _ :: rest, _ => by
    simp [computeLoop, addedValues, mkRow, computeLoop_map_addedValue rp rest]

theorem computeLoop_map_valueShare (rp : ℚ) :
    ∀ (l : List Actor) (prev : ℚ),
      (computeLoop rp prev l).map (fun r => r.valueShare)
        = (addedValues prev l).map (fun av => round2 (value_share rp av))
  | [], _ => rfl
  | _ :: rest, _ => by
    simp [computeLoop, addedValues, mkRow, computeLoop_map_valueShare rp rest]

theorem addedValues_length : ∀ (l : List Actor) (prev : ℚ),
    (addedValues prev l).length = l.length
  | [], _ => rfl
  | _ :: rest, _ => by
    simp [addedValues, addedValues_length rest]

theorem addedValues_sum : ∀ (l : List Actor) (prev : ℚ) (h : l ≠ []),
    (addedValues prev l).sum = (l.getLast h).revenue - prev
  | [a], prev, _ => by
    simp [addedValues, added_value]
  | a :: b :: rest, prev, _ => by
    have ih := addedValues_sum (b :: rest) a.revenue (by simp)
    rw [List.getLast_cons (by simp)]
    show (added_value prev a :: addedValues a.revenue (b :: rest)).sum = _
    rw [List.sum_cons, ih]
    simp only [added_value]
    ring

theorem foldl_append_eq_flatMap :
    ∀ (data : List ActorMetrics) (acc : List String),
      data.foldl (fun acc r => acc ++ rowRecs r) acc = acc ++ data.flatMap rowRecs
  | [], acc => by simp
  | r :: rest, acc => by
    rw [List.foldl_cons, foldl_append_eq_flatMap rest, List.flatMap_cons, List.append_assoc]

theorem sum_map_div_mul : ∀ (l : List ℚ) (rp : ℚ),
    (l.map (fun av => av / rp * 100)).sum = l.sum / rp * 100
  | [], _ => by simp
  | x :: rest, rp => by
    simp only [List.map_cons, List.sum_cons, sum_map_div_mul rest rp]
    ring

/-- The numeric output fields of one row, in column order. -/
def numFields (r : ActorMetrics) : ℚ × ℚ × ℚ × ℚ × ℚ × ℚ :=
  (r.cost, r.revenue, r.grossIncome, r.grossMargin, r.addedValue, r.valueShare)

/-- The numeric input fields of one actor. -/
def costRevenue (a : Actor) : ℚ × ℚ := (a.cost, a.revenue)

/-- Which recommendation thresholds a row's numeric fields trigger. -/
def flagOfFields (t : ℚ × ℚ × ℚ × ℚ × ℚ × ℚ) : Bool × Bool :=
  (decide (t.2.2.2.1 < 20), decide (t.2.2.2.2.2 < 10))

theorem retail_price_congr (l₁ l₂ : List Actor)
    (h : l₁.map costRevenue = l₂.map costRevenue) :
    retail_price l₁ = retail_price l₂ := by
  have hlast : (l₁.getLast?).map costRevenue = (l₂.getLast?).map costRevenue := by
    rw [← List.getLast?_map, ← List.getLast?_map, h]
  cases h₁ : l₁.getLast? with
  | none =>
    cases h₂ : l₂.getLast? with
    | none => simp [retail_price, h₁, h₂]
    | some b => rw [h₁, h₂] at hlast; simp at hlast
  | some a =>
    cases h₂ : l₂.getLast? with
    | none => rw [h₁, h₂] at hlast; simp at hlast
    | some b =>
      rw [h₁, h₂] at hlast
      simp [costRevenue, Prod.ext_iff] at hlast
      simp [retail_price, h₁, h₂, hlast.2]

theorem computeLoop_numFields_congr (rp : ℚ) :
    ∀ (l₁ l₂ : List Actor) (prev : ℚ),
      l₁.map costRevenue = l₂.map costRevenue →
      (computeLoop rp prev l₁).map numFields = (computeLoop rp prev l₂).map numFields
  | [], [], _, _ => rfl
  | [], _ :: _, _, h => by simp at h
  | _ :: _, [], _, h => by simp at h
  | a :: r₁, b :: r₂, prev, h => by
    simp only [List.map_cons, List.cons.injEq] at h
    obtain ⟨hab, ht⟩ := h
    have hc : a.cost = b.cost := congrArg Prod.fst hab
    have hr : a.revenue = b.revenue := congrArg Prod.snd hab
    have ih := computeLoop_numFields_congr rp r₁ r₂ a.revenue ht
    simp only [computeLoop, List.map_cons]
    rw [List.cons.injEq]
    constructor
    · simp [numFields, mkRow, gross_income, gross_margin, added_value, value_share, hc, hr]
    · rw [← hr]
      exact ih

/-! ### Concrete inputs used to exercise the theorems -/

/-- The spec's round-trip example chain: farmer, processor, retailer. -/
def exActors : List Actor := [⟨"F", 0, 10⟩, ⟨"P", 10, 25⟩, ⟨"R", 25, 40⟩]

/-- The expected output of the round-trip example. -/
def exMetrics : List ActorMetrics :=
  [⟨"F", 0, 10, 10, 100, 10, 25⟩,
   ⟨"P", 10, 25, 15, 60, 15, 75/2⟩,
   ⟨"R", 25, 40, 15, 75/2, 15, 75/2⟩]

/-- A chain whose only actor has zero revenue. -/
def zeroRevActors : List Actor := [⟨"Z", 5, 0⟩]

/-- A chain with zero and negative costs/revenues. -/
def negActors : List Actor := [⟨"N", -5, 0⟩, ⟨"M", 3, -2⟩]

/-- The round-trip example chain with every name replaced. -/
def renamedActors : List Actor := [⟨"A", 0, 10⟩, ⟨"B", 10, 25⟩, ⟨"C", 25, 40⟩]

/-- A metrics row with grossMargin 15 and valueShare 5. -/
def lowRow : ActorMetrics := ⟨"L", 0, 0, 0, 15, 0, 5⟩

/-- A metrics row with grossMargin 50 and valueShare 30. -/
def highRow : ActorMetrics := ⟨"H", 0, 0, 0, 50, 0, 30⟩

/-! ### The claims -/

/-- C1: `retail_price` is the last actor's revenue for a non-empty input and 1
for an empty input; an empty input yields an empty result; every row's
`valueShare` is `round2 (addedValue / retail_price * 100)` when the retail
price is non-zero and 0 (= `round2 0`) when it is zero. -/
theorem valueShare_retailPrice_spec (actors : List Actor) :
    (actors = [] → retail_price actors = 1 ∧ computeMetrics actors = [])
    ∧ (∀ h : actors ≠ [], retail_price actors = (actors.getLast h).revenue)
    ∧ (retail_price actors = 0 →
        (computeMetrics actors).map (fun r => r.valueShare) = actors.map (fun _ => 0))
    ∧ (retail_price actors ≠ 0 →
        (computeMetrics actors).map (fun r => r.valueShare)
          = (addedValues 0 actors).map (fun av => round2 (av / retail_price actors * 100))) := by
  refine ⟨?_, ?_, ?_, ?_⟩
  · rintro rfl
    exact ⟨rfl, rfl⟩
  · intro h
    exact retail_price_eq_getLast actors h
  · intro h0
    rw [computeMetrics, computeLoop_map_valueShare]
    simp [value_share, h0, round2_zero, addedValues_length]
  · intro hne
    rw [computeMetrics, computeLoop_map_valueShare]
    simp [value_share, hne]

/-- Witness for C1 on the round-trip example chain (retail price 40 ≠ 0). -/
theorem valueShare_retailPrice_spec_witness :
    (computeMetrics exActors).map (fun r => r.valueShare)
      = (addedValues 0 exActors).map (fun av => round2 (av / retail_price exActors * 100)) :=
  (valueShare_retailPrice_spec exActors).2.2.2
    (by rw [show retail_price exActors = 40 from rfl]; norm_num)

/-- C2: each emitted `grossMargin` is `round2` of the guarded formula
`gross_margin`; for a zero-revenue actor the emitted value is exactly 0, and
for a non-zero-revenue actor the formula is `grossIncome / revenue * 100`.
The computation is a total function on ℚ, so no error or undefined value
can arise. -/
theorem grossMargin_zero_guard (actors : List Actor) (i : ℕ) (h : i < actors.length) :
    ((computeMetrics actors).getD i default).grossMargin
        = round2 (gross_margin (actors.getD i default))
    ∧ ((actors.getD i default).revenue = 0 →
        ((computeMetrics actors).getD i default).grossMargin = 0)
    ∧ ((actors.getD i default).revenue ≠ 0 →
        gross_margin (actors.getD i default)
          = gross_income (actors.getD i default) / (actors.getD i default).revenue * 100) := by
  have hg := computeLoop_getD (retail_price actors) actors 0 i h
  rw [computeMetrics, hg]
  refine ⟨rfl, ?_, ?_⟩
  · intro hz
    show round2 (gross_margin (actors.getD i default)) = 0
    rw [gross_margin, if_neg (not_not_intro hz)]
    exact round2_zero
  · intro hnz
    rw [gross_margin, if_pos hnz]

/-- Witness for C2 on a zero-revenue actor: the emitted gross margin is 0. -/
theorem grossMargin_zero_guard_witness :
    ((computeMetrics zeroRevActors).getD 0 default).grossMargin = 0 :=
  (grossMargin_zero_guard zeroRevActors 0 (by decide)).2.1 rfl

/-- C3: the emitted `addedValue` at position `i` is `round2` of the current
actor's revenue minus the previous actor's revenue, with 0 for the first
actor (`prev_revenue` starts at 0 and is updated after each row). -/
theorem addedValue_recurrence (actors : List Actor) (i : ℕ) (h : i < actors.length) :
    ((computeMetrics actors).getD i default).addedValue
      = round2 ((actors.getD i default).revenue
          - (if i = 0 then 0 else (actors.getD (i - 1) default).revenue)) := by
  have hg := computeLoop_getD (retail_price actors) actors 0 i h
  rw [computeMetrics, hg]
  simp [mkRow, added_value]

/-- Witness for C3 at position 1 of the round-trip example. -/
theorem addedValue_recurrence_witness :
    ((computeMetrics exActors).getD 1 default).addedValue = round2 (25 - 10) := by
  simpa [exActors] using addedValue_recurrence exActors 1 (by decide)

/-- C4: the output has the input's length; the row at position `i` is `mkRow`
of the actor at position `i` (with the carried previous revenue), and carries
that actor's name, cost and revenue unchanged. -/
theorem computeMetrics_length_order (actors : List Actor) :
    (computeMetrics actors).length = actors.length
    ∧ ∀ (i : ℕ), i < actors.length →
        (computeMetrics actors).getD i default
          = mkRow (retail_price actors)
              (if i = 0 then 0 else (actors.getD (i - 1) default).revenue)
              (actors.getD i default)
        ∧ ((computeMetrics actors).getD i default).name = (actors.getD i default).name
        ∧ ((computeMetrics actors).getD i default).cost = (actors.getD i default).cost
        ∧ ((computeMetrics actors).getD i default).revenue
            = (actors.getD i default).revenue := by
  refine ⟨by rw [computeMetrics]; exact computeLoop_length _ actors 0, ?_⟩
  intro i h
  have hg := computeLoop_getD (retail_price actors) actors 0 i h
  rw [computeMetrics, hg]
  exact ⟨rfl, rfl, rfl, rfl⟩

/-- Witness for C4 on the round-trip example. -/
theorem computeMetrics_length_order_witness :
    (computeMetrics exActors).length = 3
    ∧ ((computeMetrics exActors).getD 0 default).name = "F" := by
  have h := computeMetrics_length_order exActors
  exact ⟨h.1, (h.2 0 (by decide)).2.1⟩

/-- C5: every row passes `name`, `cost`, `revenue` through unchanged, emits
`grossIncome = revenue - cost` unrounded, and each of `grossMargin`,
`addedValue`, `valueShare` is an integer number of hundredths (rounded to
2 decimal places). -/
theorem rounding_and_passthrough (actors : List Actor) (i : ℕ) (h : i < actors.length) :
    ((computeMetrics actors).getD i default).grossIncome
        = (actors.getD i default).revenue - (actors.getD i default).cost
    ∧ ((computeMetrics actors).getD i default).name = (actors.getD i default).name
    ∧ ((computeMetrics actors).getD i default).cost = (actors.getD i default).cost
    ∧ ((computeMetrics actors).getD i default).revenue = (actors.getD i default).revenue
    ∧ (∃ k : ℤ, ((computeMetrics actors).getD i default).grossMargin = (k : ℚ) / 100)
    ∧ (∃ k : ℤ, ((computeMetrics actors).getD i default).addedValue = (k : ℚ) / 100)
    ∧ (∃ k : ℤ, ((computeMetrics actors).getD i default).valueShare = (k : ℚ) / 100) := by
  have hg := computeLoop_getD (retail_price actors) actors 0 i h
  rw [computeMetrics, hg]
  exact ⟨rfl, rfl, rfl, rfl, round2_exists_div100 _, round2_exists_div100 _,
    round2_exists_div100 _⟩

/-- Witness for C5 at position 0 of the round-trip example. -/
theorem rounding_and_passthrough_witness :
    ((computeMetrics exActors).getD 0 default).grossIncome = 10 - 0
    ∧ ∃ k : ℤ, ((computeMetrics exActors).getD 0 default).valueShare = (k : ℚ) / 100 := by
  have h := rounding_and_passthrough exActors 0 (by decide)
  exact ⟨h.1, h.2.2.2.2.2.2⟩

/-- C6: the spec's round-trip example: retail price 40, and the three rows are
F: grossIncome 10, grossMargin 100, addedValue 10, valueShare 25;
P: grossIncome 15, grossMargin 60, addedValue 15, valueShare 37.5;
R: grossIncome 15, grossMargin 37.5, addedValue 15, valueShare 37.5. -/
theorem computeMetrics_roundtrip_example :
    retail_price exActors = 40 ∧ computeMetrics exActors = exMetrics := by
  refine ⟨rfl, ?_⟩
  rw [computeMetrics, show retail_price exActors = 40 from rfl]
  simp only [exActors, computeLoop, exMetrics]
  norm_num [mkRow, gross_income, gross_margin, added_value, value_share, round2,
    roundHalfEven]

/-- C7: the recommendation loop emits, in input order, the messages of each
row; a row contributes the low-margin warning exactly when `grossMargin < 20`
and the low-value-share warning exactly when `valueShare < 10`, hence zero,
one or two messages per row. -/
theorem recommendations_spec (data : List ActorMetrics) :
    recommendations data = data.flatMap rowRecs
    ∧ (∀ r : ActorMetrics, r.grossMargin < 20 → r.valueShare < 10 →
        rowRecs r = [marginMsg r, shareMsg r])
    ∧ (∀ r : ActorMetrics, 20 ≤ r.grossMargin → r.valueShare < 10 →
        rowRecs r = [shareMsg r])
    ∧ (∀ r : ActorMetrics, r.grossMargin < 20 → 10 ≤ r.valueShare →
        rowRecs r = [marginMsg r])
    ∧ (∀ r : ActorMetrics, 20 ≤ r.grossMargin → 10 ≤ r.valueShare →
        rowRecs r = []) := by
  refine ⟨?_, ?_, ?_, ?_, ?_⟩
  · rw [recommendations, foldl_append_eq_flatMap data [], List.nil_append]
  · intro r h1 h2
    simp [rowRecs, h1, h2]
  · intro r h1 h2
    simp [rowRecs, not_lt.mpr h1, h2]
  · intro r h1 h2
    simp [rowRecs, h1, not_lt.mpr h2]
  · intro r h1 h2
    simp [rowRecs, not_lt.mpr h1, not_lt.mpr h2]

/-- Witness for C7: a row with grossMargin 15 and valueShare 5 yields exactly
its two warnings; a row with grossMargin 50 and valueShare 30 yields none. -/
theorem recommendations_spec_witness :
    rowRecs lowRow = [marginMsg lowRow, shareMsg lowRow] ∧ rowRecs highRow = [] := by
  constructor
  · exact (recommendations_spec []).2.1 lowRow (by norm_num [lowRow]) (by norm_num [lowRow])
  · exact (recommendations_spec []).2.2.2.2 highRow (by norm_num [highRow])
      (by norm_num [highRow])

/-- C8: `computeMetrics` is deterministic (equal inputs give equal outputs) and,
being a total Lean function on ℚ (both divisions are guarded), is defined on
every numeric input, including zero and negative costs and revenues. -/
theorem computeMetrics_deterministic_total (a₁ a₂ : List Actor) (h : a₁ = a₂) :
    computeMetrics a₁ = computeMetrics a₂
    ∧ (computeMetrics a₁).length = a₁.length := by
  refine ⟨by rw [h], ?_⟩
  rw [computeMetrics]
  exact computeLoop_length _ a₁ 0

/-- Witness for C8 on a chain with zero and negative costs/revenues. -/
theorem computeMetrics_deterministic_total_witness :
    computeMetrics negActors = computeMetrics negActors
    ∧ (computeMetrics negActors).length = 2 :=
  computeMetrics_deterministic_total negActors negActors rfl

/-- C9: the emitted addedValue column is the rounding of the pre-rounding
added values; those telescope to the last actor's revenue (the retail price),
and when the retail price is non-zero the pre-rounding value shares sum to
exactly 100. -/
theorem addedValues_telescoping (actors : List Actor) (h : actors ≠ []) :
    (computeMetrics actors).map (fun r => r.addedValue) = (addedValues 0 actors).map round2
    ∧ (addedValues 0 actors).sum = retail_price actors
    ∧ (retail_price actors ≠ 0 →
        ((addedValues 0 actors).map (value_share (retail_price actors))).sum = 100) := by
  have hsum : (addedValues 0 actors).sum = retail_price actors := by
    rw [addedValues_sum actors 0 h, retail_price_eq_getLast actors h]
    ring
  refine ⟨?_, hsum, ?_⟩
  · rw [computeMetrics]
    exact computeLoop_map_addedValue _ actors 0
  · intro hne
    have hmap : (addedValues 0 actors).map (value_share (retail_price actors))
        = (addedValues 0 actors).map (fun av => av / retail_price actors * 100) := by
      apply List.map_congr_left
      intro av _
      rw [value_share, if_pos hne]
    rw [hmap, sum_map_div_mul, hsum, div_self hne, one_mul]

/-- Witness for C9 on the round-trip example: the pre-rounding added values
sum to the retail price and the pre-rounding shares sum to 100. -/
theorem addedValues_telescoping_witness :
    (addedValues 0 exActors).sum = retail_price exActors
    ∧ ((addedValues 0 exActors).map (value_share (retail_price exActors))).sum = 100 := by
  have h := addedValues_telescoping exActors (by simp [exActors])
  exact ⟨h.2.1, h.2.2 (by rw [show retail_price exActors = 40 from rfl]; norm_num)⟩

/-- C10: two inputs that agree on every actor's cost and revenue (names may
differ) produce rows with identical numeric fields, and the same positions
trigger the same recommendation thresholds. -/
theorem name_noninterference (a₁ a₂ : List Actor)
    (h : a₁.map costRevenue = a₂.map costRevenue) :
    (computeMetrics a₁).map numFields = (computeMetrics a₂).map numFields
    ∧ (computeMetrics a₁).map
        (fun r => (decide (r.grossMargin < 20), decide (r.valueShare < 10)))
      = (computeMetrics a₂).map
        (fun r => (decide (r.grossMargin < 20), decide (r.valueShare < 10))) := by
  have hrp := retail_price_congr a₁ a₂ h
  have hmain : (computeMetrics a₁).map numFields = (computeMetrics a₂).map numFields := by
    rw [computeMetrics, computeMetrics, hrp]
    exact computeLoop_numFields_congr (retail_price a₂) a₁ a₂ 0 h
  refine ⟨hmain, ?_⟩
  have h2 : ((computeMetrics a₁).map numFields).map flagOfFields
      = ((computeMetrics a₂).map numFields).map flagOfFields := by rw [hmain]
  rw [List.map_map, List.map_map] at h2
  exact h2

/-- Witness for C10: the round-trip example and its renamed copy produce the
same numeric columns. -/
theorem name_noninterference_witness :
    (computeMetrics exActors).map numFields
      = (computeMetrics renamedActors).map numFields :=
  (name_noninterference exActors renamedActors rfl).1
